import Mathlib

/-!
Verification development for the huesync ambient-lighting tool.

The Go source is embedded shallowly: byte slices become `List Nat` whose
elements are byte values (`< 256`), Go `uint8`/`uint16` arithmetic becomes
`Nat` arithmetic with explicit `% 256` / range hypotheses where overflow or
truncation matters, fallible operations return `Except`, and file-system
state is passed explicitly.
-/

namespace Huesync

/-- 8-bit RGB triple (`RGB` in screen.go); components are byte values. -/
structure RGB where
  r : Nat
  g : Nat
  b : Nat
deriving DecidableEq, Repr

/-! ## HueStream framer (stream.go) -/

/-- The ASCII bytes of the string literal copied into `msg[0:9]`. -/
def hueMagic : List Nat := [72, 117, 101, 83, 116, 114, 101, 97, 109]

/-- `padOrTruncate` from stream.go: `make([]byte, n)` zero-fills, then
`copy(b, s)` copies the first `min (s.length) n` bytes of `s`. -/
def padOrTruncate (s : List Nat) (n : Nat) : List Nat :=
  s.take n ++ List.replicate (n - s.length) 0

/-- One 7-byte per-channel block written by the loop in
`BuildHueStreamMessage`: channel id, then `r16 = r*257`, `g16`, `b16`
big-endian (`byte (x >> 8) = x / 256`, `byte x = x % 256`; for `r < 256`,
`r*257 < 2^16`, so the `uint16` arithmetic never wraps). -/
def channelBlock (c : RGB) (ch : Nat) : List Nat :=
  [ch,
   c.r * 257 / 256, c.r * 257 % 256,
   c.g * 257 / 256, c.g * 257 % 256,
   c.b * 257 / 256, c.b * 257 % 256]

/-- `BuildHueStreamMessage` from stream.go. The Go code allocates
`52 + 7*len(channelIDs)` zero bytes and fills them by index; the filled
regions are contiguous, so the result is the concatenation of the 16-byte
header (magic, version 2.0, sequence, reserved, color space, reserved),
the 36-byte padded area id, and one 7-byte block per channel id. -/
def BuildHueStreamMessage (areaID : List Nat) (channelIDs : List Nat)
    (c : RGB) (seq : Nat) : List Nat :=
  hueMagic ++ [2, 0, seq, 0, 0, 0, 0]
    ++ padOrTruncate areaID 36
    ++ (channelIDs.map (channelBlock c)).flatten

/-! ## Streaming transport (stream.go) -/

/-- The fields of `Streamer` that the sequence/framing logic touches.
`conn` is replaced by passing each write's outcome in explicitly. -/
structure Streamer where
  areaID : List Nat
  channelIDs : List Nat
  seq : Nat
deriving DecidableEq, Repr

/-- `NewStreamer`: the struct literal sets `areaID` and `channelIDs` and
leaves `seq` at its zero value. -/
def NewStreamer (areaID : List Nat) (channelIDs : List Nat) : Streamer :=
  { areaID := areaID, channelIDs := channelIDs, seq := 0 }

/-- `Streamer.SendColor`: builds the datagram from the current `seq`,
increments `seq` (uint8, so wrapping at 256), then writes. `writeOk`
stands for the outcome of `conn.Write`; the returned triple is the
datagram written, the updated streamer, and the error result. -/
def SendColor (s : Streamer) (c : RGB) (writeOk : Bool) :
    List Nat × Streamer × Except String Unit :=
  let msg := BuildHueStreamMessage s.areaID s.channelIDs c s.seq
  let s' := { s with seq := (s.seq + 1) % 256 }
  (msg, s', if writeOk then Except.ok () else Except.error "writing to DTLS")

/-- `n` consecutive successful `SendColor` calls. -/
def sendN (s : Streamer) (c : RGB) : Nat → Streamer
  | 0 => s
  | n + 1 => (SendColor (sendN s c n) c true).2.1

/-! ## Frame averager (capture source, `averageRGB`) -/

/-- Sum of the buffer bytes at offsets `3*i + k` for `i < n`: the running
`rSum`/`gSum`/`bSum` accumulators of `averageRGB` for component `k`. -/
def sumByte (buf : List Nat) (k : Nat) : Nat → Nat
  | 0 => 0
  | n + 1 => sumByte buf k n + buf.getD (3 * n + k) 0

/-- `averageRGB` from the capture source: mean of each component over
`pixels` pixels of a packed RGB24 buffer; `uint8(x)` is `x % 256`;
`pixels == 0` returns the zero value `RGB{}`. -/
def averageRGB (buf : List Nat) (pixels : Nat) : RGB :=
  if pixels = 0 then ⟨0, 0, 0⟩
  else
    ⟨sumByte buf 0 pixels / pixels % 256,
     sumByte buf 1 pixels / pixels % 256,
     sumByte buf 2 pixels / pixels % 256⟩

/-- The list of component-`k` bytes of the first `pixels` pixels; its mean
is the "component-wise mean" of the specification. -/
def componentList (buf : List Nat) (pixels k : Nat) : List Nat :=
  (List.range pixels).map (fun i => buf.getD (3 * i + k) 0)

/-- Truncating integer mean of a list of naturals. -/
def listMean (l : List Nat) : Nat := l.sum / l.length

/-- A packed RGB24 buffer of `pixels` copies of color `c`. -/
def fillBuf (c : RGB) (pixels : Nat) : List Nat :=
  (List.replicate pixels [c.r, c.g, c.b]).flatten

/-! ## Bridge REST client (hue.go): pairing -/

/-- `pairSuccess` JSON object; the Go decoder fills absent keys with the
empty string. -/
structure PairSuccess where
  username : String
  clientkey : String
deriving DecidableEq, Repr

/-- `pairError` JSON object. -/
structure PairError where
  type : Int
  description : String
deriving DecidableEq, Repr

/-- `pairResponse`: one element of the decoded `/api` response array;
`success` and `error` are pointers, `none` when the key is absent. -/
structure PairResponse where
  success : Option PairSuccess
  error : Option PairError
deriving DecidableEq, Repr

/-- The possible outcomes of `PairBridge` after the response body has been
decoded: the success pair, or one of its error returns. -/
inductive PairOutcome where
  | ok (username clientkey : String)
  | linkButtonNotPressed
  | bridgeError (t : Int) (d : String)
  | emptyResponse
  | noSuccessOrError
deriving DecidableEq, Repr

/-- `PairBridge` from hue.go, from the decoded response array on: empty
array fails, otherwise only `result[0]` is inspected — its `error` first
(type 101 is the link-button error), then its `success`. -/
def PairBridge (result : List PairResponse) : PairOutcome :=
  match result with
  | [] => .emptyResponse
  | r :: _ =>
    match r.error with
    | some e =>
      if e.type = 101 then .linkButtonNotPressed
      else .bridgeError e.type e.description
    | none =>
      match r.success with
      | none => .noSuccessOrError
      | some s => .ok s.username s.clientkey

/-- Outcomes the spec groups under "malformed response": an empty array or
a first element with neither `success` nor `error`. -/
def isMalformedOutcome : PairOutcome → Bool
  | .emptyResponse => true
  | .noSuccessOrError => true
  | _ => false

/-- `FetchEntertainmentAreas` maps HTTP status 403 to `ErrUnauthorized`
before decoding the body (hue.go); other statuses proceed to decoding. -/
def fetchAreasStatusCheck (statusCode : Nat) : Bool :=
  statusCode = 403

/-! ## Credential store (credentials.go) -/

/-- `BridgeCredentials` from credentials.go. -/
structure BridgeCredentials where
  username : String
  clientkey : String
deriving DecidableEq, Repr

/-- Contents of the credentials file as the store's operations observe
them: missing (`os.IsNotExist`), unreadable or unparsable, or a parsed
map of bridge id to credentials (Go maps have unique keys). -/
inductive CredFile where
  | missing
  | malformed
  | stored (entries : List (String × BridgeCredentials))
deriving DecidableEq, Repr

/-- The file-system state the store sees: whether `credentialsPath`
resolves (it fails only when the home directory cannot be determined),
and the credentials file itself. -/
structure CredStore where
  pathOk : Bool
  file : CredFile
deriving DecidableEq, Repr

/-- Go map lookup `creds[bridgeID]` on the association-list model. -/
def lookupCred : List (String × BridgeCredentials) → String →
    Option BridgeCredentials
  | [], _ => none
  | p :: t, id => if p.1 = id then some p.2 else lookupCred t id

/-- Go map update `all[bridgeID] = creds`: replace the existing entry, or
add a new one. -/
def insertCred : List (String × BridgeCredentials) → String →
    BridgeCredentials → List (String × BridgeCredentials)
  | [], id, c => [(id, c)]
  | p :: t, id, c =>
    if p.1 = id then (id, c) :: t else p :: insertCred t id c

/-- Go map delete `delete(all, bridgeID)`: drop the entry for the key. -/
def eraseCred : List (String × BridgeCredentials) → String →
    List (String × BridgeCredentials)
  | [], _ => []
  | p :: t, id => if p.1 = id then eraseCred t id else p :: eraseCred t id

/-- `readAllCredentials`: fails on a missing or unparsable file. -/
def readAllCredentials : CredFile →
    Except Unit (List (String × BridgeCredentials))
  | .missing => .error ()
  | .malformed => .error ()
  | .stored entries => .ok entries

/-- `LoadCredentials` from credentials.go: a path error is returned; any
read error (missing file included) yields `(zero value, false)` with no
error; otherwise the map is consulted. -/
def LoadCredentials (s : CredStore) (id : String) :
    Except Unit (BridgeCredentials × Bool) :=
  if s.pathOk then
    match readAllCredentials s.file with
    | .error _ => .ok (⟨"", ""⟩, false)
    | .ok entries =>
      match lookupCred entries id with
      | none => .ok (⟨"", ""⟩, false)
      | some bc => .ok (bc, true)
  else .error ()

/-- `SaveCredentials` from credentials.go: a path error is returned; a
failed read starts from an empty map; the entry is set and the whole file
rewritten. -/
def SaveCredentials (s : CredStore) (id : String) (c : BridgeCredentials) :
    Except Unit CredStore :=
  if s.pathOk then
    let all := match readAllCredentials s.file with
      | .error _ => []
      | .ok entries => entries
    .ok ⟨s.pathOk, .stored (insertCred all id c)⟩
  else .error ()

/-- `DeleteCredentials` from credentials.go: a path error is returned; a
failed read (missing file included) is returned as an error and the file
is left untouched; otherwise the entry is deleted and the file
rewritten. -/
def DeleteCredentials (s : CredStore) (id : String) : Except Unit CredStore :=
  if s.pathOk then
    match readAllCredentials s.file with
    | .error _ => .error ()
    | .ok entries => .ok ⟨s.pathOk, .stored (eraseCred entries id)⟩
  else .error ()

/-! ## Session orchestrator (TUI model and Update handlers) -/

/-- `EntertainmentArea` from hue.go. -/
structure EntertainmentArea where
  id : String
  name : String
  type : String
  status : String
  channelIDs : List Nat
  lights : Nat
deriving DecidableEq, Repr

/-- The `state` constants of the TUI model. -/
inductive TState where
  | scanning
  | selecting
  | pairing
  | pairingWait
  | fetchingAreas
  | selectingArea
  | inputDelay
  | activating
  | connecting
  | streaming
  | stopping
  | done
deriving DecidableEq, Repr

/-- The error carried by `pairResultMsg.err`: the orchestrator only
distinguishes `ErrLinkButtonNotPressed` (via `errors.Is`) from the rest. -/
inductive PairFailure where
  | linkButtonNotPressed
  | bridgeError (t : Int) (d : String)
  | emptyResponse
  | noSuccessOrError
  | requestFailed (message : String)
deriving DecidableEq, Repr

/-- The Go error strings produced by `PairBridge` for each failure. -/
def pairFailureMessage : PairFailure → String
  | .linkButtonNotPressed => "link button not pressed"
  | .bridgeError t d => "bridge error " ++ toString t ++ ": " ++ d
  | .emptyResponse => "empty pair response"
  | .noSuccessOrError => "unexpected pair response: no success or error"
  | .requestFailed message => message

/-- `pairResultMsg` from the TUI source. -/
structure PairResultMsg where
  username : String
  clientkey : String
  err : Option PairFailure
deriving DecidableEq, Repr

/-- `pairCmd` wraps the return values of `PairBridge` into a
`pairResultMsg` (error outcomes carry empty strings). -/
def pairResultOf : PairOutcome → PairResultMsg
  | .ok u k => ⟨u, k, none⟩
  | .linkButtonNotPressed => ⟨"", "", some .linkButtonNotPressed⟩
  | .bridgeError t d => ⟨"", "", some (.bridgeError t d)⟩
  | .emptyResponse => ⟨"", "", some .emptyResponse⟩
  | .noSuccessOrError => ⟨"", "", some .noSuccessOrError⟩

/-- The error carried by `areasFetchedMsg.err`: the orchestrator only
distinguishes `ErrUnauthorized` (via `errors.Is`) from the rest. -/
inductive FetchError where
  | unauthorized
  | other (message : String)
deriving DecidableEq, Repr

/-- The Go error strings for fetch failures. -/
def fetchErrorMessage : FetchError → String
  | .unauthorized => "unauthorized"
  | .other message => message

/-- `areasFetchedMsg` from the TUI source. -/
structure AreasFetchedMsg where
  areas : List EntertainmentArea
  err : Option FetchError
deriving DecidableEq, Repr

/-- The commands the modelled handlers can return (`nil`, `tea.Quit`, or
`fetchAreasCmd(ip, username)`). -/
inductive TuiCmd where
  | noCmd
  | quit
  | fetchAreas (ip username : String)
deriving DecidableEq, Repr

/-- The fields of the TUI `model` the modelled handlers touch.
`selectedID`/`selectedIP` stand for `m.selected.ID` / `m.selected.IP`. -/
structure TuiModel where
  state : TState
  selectedID : String
  selectedIP : String
  username : String
  clientkey : String
  pairErr : String
  err : Option String
  areas : List EntertainmentArea
  selectedArea : Option EntertainmentArea
  delayInput : String
deriving DecidableEq, Repr

/-- `model.enterDelayInput`: preset the delay input and switch state. -/
def enterDelayInput (m : TuiModel) : TuiModel × TuiCmd :=
  ({ m with delayInput := "100", state := .inputDelay }, .noCmd)

/-- The `pairResultMsg` case of `model.Update`, with the credential store
threaded explicitly; the `SaveCredentials` error is discarded (`_ =`), so
a failed save leaves the store unchanged. -/
def updatePairResult (m : TuiModel) (store : CredStore)
    (msg : PairResultMsg) : TuiModel × CredStore × TuiCmd :=
  match msg.err with
  | some .linkButtonNotPressed =>
    ({ m with pairErr := "Link button not pressed.", state := .pairing },
     store, .noCmd)
  | some e =>
    ({ m with
        err := some ("pairing failed: " ++ pairFailureMessage e),
        state := .done }, store, .quit)
  | none =>
    let store' := match SaveCredentials store m.selectedID
        ⟨msg.username, msg.clientkey⟩ with
      | .ok s' => s'
      | .error _ => store
    ({ m with
        username := msg.username,
        clientkey := msg.clientkey,
        pairErr := "",
        state := .fetchingAreas },
     store', .fetchAreas m.selectedIP msg.username)

/-- The `areasFetchedMsg` case of `model.Update`, with the credential
store threaded explicitly; the `DeleteCredentials` error is discarded
(`_ =`), so a failed delete leaves the store unchanged. -/
def updateAreasFetched (m : TuiModel) (store : CredStore)
    (msg : AreasFetchedMsg) : TuiModel × CredStore × TuiCmd :=
  match msg.err with
  | some .unauthorized =>
    let store' := match DeleteCredentials store m.selectedID with
      | .ok s' => s'
      | .error _ => store
    ({ m with
        username := "",
        clientkey := "",
        pairErr := "Stored credentials were rejected by the bridge.",
        state := .pairing }, store', .noCmd)
  | some e =>
    ({ m with
        err := some ("fetching entertainment areas: " ++ fetchErrorMessage e),
        state := .done }, store, .quit)
  | none =>
    match msg.areas with
    | [] =>
      ({ m with
          err := some "no entertainment areas configured on this bridge",
          state := .done }, store, .quit)
    | [a] =>
      let md := enterDelayInput { m with selectedArea := some a }
      (md.1, store, md.2)
    | _ =>
      ({ m with areas := msg.areas, state := .selectingArea }, store, .noCmd)

/-! ## Helper lemmas -/

theorem padOrTruncate_length (s : List Nat) (n : Nat) :
    (padOrTruncate s n).length = n := by
  simp [padOrTruncate]
  omega

theorem flattenBlocks_length (c : RGB) (l : List Nat) :
    ((l.map (channelBlock c)).flatten).length = 7 * l.length := by
  induction l with
  | nil => simp
  | cons x t ih =>
    simp only [List.map_cons, List.flatten_cons, List.length_append, ih,
      List.length_cons]
    simp [channelBlock]
    ring

theorem flattenBlocks_extract (c : RGB) (l : List Nat) :
    ∀ i : Nat, i < l.length →
      (((l.map (channelBlock c)).flatten).drop (7 * i)).take 7
        = channelBlock c (l.getD i 0) := by
  induction l with
  | nil => intro i h; simp at h
  | cons x t ih =>
    intro i h
    cases i with
    | zero => simp [channelBlock]
    | succ j =>
      have hlt : j < t.length := by
        simpa using Nat.lt_of_succ_lt_succ h
      have hdrop :
          ((((x :: t).map (channelBlock c)).flatten).drop (7 * (j + 1)))
            = (((t.map (channelBlock c)).flatten).drop (7 * j)) := by
        have h7 : 7 * (j + 1) = (channelBlock c x).length + 7 * j := by
          simp [channelBlock]; ring
        simp only [List.map_cons, List.flatten_cons, h7, List.drop_append]
      rw [hdrop, ih j hlt]
      simp [List.getD_cons_succ]

theorem msg_drop16 (areaID channelIDs : List Nat) (c : RGB) (seq : Nat) :
    (BuildHueStreamMessage areaID channelIDs c seq).drop 16
      = padOrTruncate areaID 36 ++ (channelIDs.map (channelBlock c)).flatten :=
  rfl

/-! ## Claim theorems -/

/-- C1: for every area id, channel-id list, RGB color (8-bit components)
and sequence byte, `BuildHueStreamMessage` returns a byte sequence of
length `52 + 7 * len(channelIDs)` whose bytes 0..8 are ASCII
`HueStream`, byte 9 is `0x02`, byte 10 is `0x00`, byte 11 is the
sequence, bytes 12, 13, 14 and 15 are `0x00`, bytes 16..51 are the area
id right-padded with `0x00` (truncated if longer than 36 bytes), and the
7-byte block at offset `52 + 7*i` holds `channelIDs[i]` followed by the
big-endian 16-bit values `r*257`, `g*257`, `b*257`, one block per
channel id in order. -/
theorem buildHueStreamMessage_spec
    (areaID channelIDs : List Nat) (c : RGB) (seq : Nat)
    (hr : c.r < 256) (hg : c.g < 256) (hb : c.b < 256) :
    (BuildHueStreamMessage areaID channelIDs c seq).length
        = 52 + 7 * channelIDs.length
    ∧ (BuildHueStreamMessage areaID channelIDs c seq).take 9
        = [72, 117, 101, 83, 116, 114, 101, 97, 109]
    ∧ (BuildHueStreamMessage areaID channelIDs c seq).getD 9 0 = 2
    ∧ (BuildHueStreamMessage areaID channelIDs c seq).getD 10 0 = 0
    ∧ (BuildHueStreamMessage areaID channelIDs c seq).getD 11 0 = seq
    ∧ (BuildHueStreamMessage areaID channelIDs c seq).getD 12 0 = 0
    ∧ (BuildHueStreamMessage areaID channelIDs c seq).getD 13 0 = 0
    ∧ (BuildHueStreamMessage areaID channelIDs c seq).getD 14 0 = 0
    ∧ (BuildHueStreamMessage areaID channelIDs c seq).getD 15 0 = 0
    ∧ ((BuildHueStreamMessage areaID channelIDs c seq).drop 16).take 36
        = areaID.take 36 ++ List.replicate (36 - areaID.length) 0
    ∧ ∀ i, i < channelIDs.length →
        ((BuildHueStreamMessage areaID channelIDs c seq).drop
            (52 + 7 * i)).take 7
          = [channelIDs.getD i 0,
             c.r * 257 / 256, c.r * 257 % 256,
             c.g * 257 / 256, c.g * 257 % 256,
             c.b * 257 / 256, c.b * 257 % 256] := by
  refine ⟨?_, rfl, rfl, rfl, rfl, rfl, rfl, rfl, rfl, ?_, ?_⟩
  · simp only [BuildHueStreamMessage, List.length_append,
      flattenBlocks_length, padOrTruncate_length, hueMagic,
      List.length_cons, List.length_nil]
  · have hleft := List.take_left (padOrTruncate areaID 36)
      ((channelIDs.map (channelBlock c)).flatten)
    rw [padOrTruncate_length] at hleft
    rw [msg_drop16, hleft]
    rfl
  · intro i hi
    have e1 : 52 + 7 * i = 16 + (36 + 7 * i) := by ring
    rw [e1, ← List.drop_drop, msg_drop16]
    have h2 := @List.drop_append Nat (padOrTruncate areaID 36)
      ((channelIDs.map (channelBlock c)).flatten) (7 * i)
    rw [padOrTruncate_length] at h2
    rw [h2, flattenBlocks_extract c channelIDs i hi]
    rfl

/-- Witness for C1 at a concrete input (spec test vector: channels
`[0, 3]`, color `(255, 0, 128)`). -/
theorem buildHueStreamMessage_spec_witness :
    (BuildHueStreamMessage [120] [0, 3] ⟨255, 0, 128⟩ 7).length = 66
    ∧ ((BuildHueStreamMessage [120] [0, 3] ⟨255, 0, 128⟩ 7).drop
        (52 + 7 * 1)).take 7 = [3, 255, 255, 0, 0, 128, 128] := by
  have h := buildHueStreamMessage_spec [120] [0, 3] ⟨255, 0, 128⟩ 7
    (by decide) (by decide) (by decide)
  exact ⟨h.1.trans (by decide),
    (h.2.2.2.2.2.2.2.2.2.2 1 (by decide)).trans (by decide)⟩

theorem sendN_newStreamer_seq (a ch : List Nat) (c : RGB) (n : Nat) :
    (sendN (NewStreamer a ch) c n).seq = n % 256 := by
  induction n with
  | zero => rfl
  | succ k ih => simp [sendN, SendColor, ih, Nat.mod_add_mod]

/-- C2: the sequence counter starts at 0 on construction; each
`SendColor` puts the current sequence into byte 11 of the datagram and
then increments it modulo 256 (so consecutive datagrams carry
consecutive sequence bytes, wrapping at 255), and after 256 successful
sends the counter is back at 0. -/
theorem streamer_seq_spec :
    (∀ a ch, (NewStreamer a ch).seq = 0)
    ∧ (∀ s c ok, s.seq < 256 → ((SendColor s c ok).1).getD 11 0 = s.seq)
    ∧ (∀ s c ok, ((SendColor s c ok).2.1).seq = (s.seq + 1) % 256)
    ∧ (∀ s c, s.seq < 256 →
        ((SendColor ((SendColor s c true).2.1) c true).1).getD 11 0
          = (s.seq + 1) % 256)
    ∧ (∀ a ch c, (sendN (NewStreamer a ch) c 256).seq = 0) := by
  refine ⟨fun a ch => rfl, fun s c ok _ => rfl, fun s c ok => rfl,
    fun s c _ => rfl, fun a ch c => ?_⟩
  simp [sendN_newStreamer_seq]

/-- Witness for C2: first datagram of a fresh streamer carries sequence
0, and a send at sequence 255 is followed by a datagram with sequence
`(255 + 1) % 256 = 0`. -/
theorem streamer_seq_spec_witness :
    ((SendColor (NewStreamer [] [5]) ⟨1, 2, 3⟩ true).1).getD 11 0 = 0
    ∧ ((SendColor ((SendColor ⟨[], [5], 255⟩ ⟨1, 2, 3⟩ true).2.1)
        ⟨1, 2, 3⟩ true).1).getD 11 0 = (255 + 1) % 256 := by
  have h := streamer_seq_spec
  exact ⟨h.2.1 (NewStreamer [] [5]) ⟨1, 2, 3⟩ true (by decide),
    h.2.2.2.1 ⟨[], [5], 255⟩ ⟨1, 2, 3⟩ (by decide)⟩

/-- C10: `SendColor` advances the sequence counter exactly once on every
call, also when the datagram write fails — the updated streamer state
does not depend on the write outcome, and the failed call returns the
write error. -/
theorem sendColor_increments_on_error :
    (∀ s c ok, ((SendColor s c ok).2.1).seq = (s.seq + 1) % 256)
    ∧ (∀ s c, (SendColor s c false).2.1 = (SendColor s c true).2.1)
    ∧ (∀ s c, (SendColor s c false).2.2
        = Except.error "writing to DTLS") :=
  ⟨fun _ _ _ => rfl, fun _ _ => rfl, fun _ _ => rfl⟩

theorem componentList_length (buf : List Nat) (n k : Nat) :
    (componentList buf n k).length = n := by
  simp [componentList]

theorem sumByte_eq (buf : List Nat) (k n : Nat) :
    sumByte buf k n = (componentList buf n k).sum := by
  induction n with
  | zero => simp [sumByte, componentList]
  | succ m ih => simp [sumByte, componentList, List.range_succ, ih]

theorem getD_le_255 (buf : List Nat) (h : ∀ x ∈ buf, x < 256) (m : Nat) :
    buf.getD m 0 ≤ 255 := by
  by_cases hm : m < buf.length
  · rw [List.getD_eq_getElem _ _ hm]
    exact Nat.lt_succ_iff.mp (h _ (List.getElem_mem hm))
  · rw [List.getD_eq_default _ _ (Nat.le_of_not_lt hm)]
    omega

theorem sumByte_le (buf : List Nat) (k : Nat)
    (h : ∀ x ∈ buf, x < 256) (n : Nat) :
    sumByte buf k n ≤ 255 * n := by
  induction n with
  | zero => simp [sumByte]
  | succ m ih =>
    have hb := getD_le_255 buf h (3 * m + k)
    calc sumByte buf k (m + 1)
        = sumByte buf k m + buf.getD (3 * m + k) 0 := rfl
      _ ≤ 255 * m + 255 := Nat.add_le_add ih hb
      _ = 255 * (m + 1) := by ring

theorem sumByte_const (buf : List Nat) (k v : Nat) (n : Nat)
    (h : ∀ i, i < n → buf.getD (3 * i + k) 0 = v) :
    sumByte buf k n = n * v := by
  induction n with
  | zero => simp [sumByte]
  | succ m ih =>
    have hs : sumByte buf k (m + 1)
        = sumByte buf k m + buf.getD (3 * m + k) 0 := rfl
    rw [hs, ih (fun i hi => h i (Nat.lt_succ_of_lt hi)),
      h m (Nat.lt_succ_self m)]
    ring

theorem fillBuf_getD (c : RGB) (n : Nat) :
    ∀ i k, i < n → k < 3 →
      (fillBuf c n).getD (3 * i + k) 0 = [c.r, c.g, c.b].getD k 0 := by
  induction n with
  | zero => intro i k hi _; exact absurd hi (Nat.not_lt_zero i)
  | succ m ih =>
    intro i k hi hk
    have hfill : fillBuf c (m + 1) = c.r :: c.g :: c.b :: fillBuf c m := by
      simp [fillBuf, List.replicate_succ]
    cases i with
    | zero =>
      rw [hfill, show 3 * 0 + k = k from by ring]
      interval_cases k <;> simp
    | succ j =>
      rw [hfill, show 3 * (j + 1) + k = 3 * j + k + 1 + 1 + 1 from by ring]
      simp only [List.getD_cons_succ]
      exact ih j k (Nat.lt_of_succ_lt_succ hi) hk

/-- C6: for a densely packed RGB24 buffer of `3 * pixels` bytes,
`averageRGB` returns the component-wise truncated mean; `pixels = 0`
yields `(0,0,0)`; a buffer uniformly filled with a color yields that
color; black plus white averages to `(127,127,127)`. -/
theorem averageRGB_spec :
    (∀ buf, averageRGB buf 0 = ⟨0, 0, 0⟩)
    ∧ (∀ buf pixels, 0 < pixels → buf.length = 3 * pixels →
        (∀ x ∈ buf, x < 256) →
        averageRGB buf pixels
          = ⟨listMean (componentList buf pixels 0),
             listMean (componentList buf pixels 1),
             listMean (componentList buf pixels 2)⟩)
    ∧ (∀ c pixels, 0 < pixels → c.r < 256 → c.g < 256 → c.b < 256 →
        averageRGB (fillBuf c pixels) pixels = c)
    ∧ averageRGB [0, 0, 0, 255, 255, 255] 2 = ⟨127, 127, 127⟩ := by
  have hmean : ∀ buf px k, 0 < px → (∀ x ∈ buf, x < 256) →
      sumByte buf k px / px % 256 = listMean (componentList buf px k) := by
    intro buf px k hpx hbytes
    have hdiv : sumByte buf k px / px ≤ 255 := by
      calc sumByte buf k px / px
          ≤ 255 * px / px := Nat.div_le_div_right (sumByte_le buf k hbytes px)
        _ = 255 := by rw [Nat.mul_comm, Nat.mul_div_cancel_left 255 hpx]
    rw [Nat.mod_eq_of_lt (Nat.lt_succ_of_le hdiv), listMean,
      componentList_length, sumByte_eq]
  refine ⟨fun buf => rfl, ?_, ?_, by decide⟩
  · intro buf px hpx _ hbytes
    have hne : ¬ px = 0 := Nat.pos_iff_ne_zero.mp hpx
    simp only [averageRGB, if_neg hne]
    rw [hmean buf px 0 hpx hbytes, hmean buf px 1 hpx hbytes,
      hmean buf px 2 hpx hbytes]
  · intro c px hpx hr hg hb
    obtain ⟨r, g, b⟩ := c
    have hne : ¬ px = 0 := Nat.pos_iff_ne_zero.mp hpx
    have h0 : sumByte (fillBuf ⟨r, g, b⟩ px) 0 px = px * r :=
      sumByte_const _ _ _ _ (fun i hi => by
        rw [fillBuf_getD ⟨r, g, b⟩ px i 0 hi (by norm_num)]; rfl)
    have h1 : sumByte (fillBuf ⟨r, g, b⟩ px) 1 px = px * g :=
      sumByte_const _ _ _ _ (fun i hi => by
        rw [fillBuf_getD ⟨r, g, b⟩ px i 1 hi (by norm_num)]; rfl)
    have h2 : sumByte (fillBuf ⟨r, g, b⟩ px) 2 px = px * b :=
      sumByte_const _ _ _ _ (fun i hi => by
        rw [fillBuf_getD ⟨r, g, b⟩ px i 2 hi (by norm_num)]; rfl)
    simp only [averageRGB, if_neg hne, h0, h1, h2]
    rw [Nat.mul_div_cancel_left r hpx, Nat.mul_div_cancel_left g hpx,
      Nat.mul_div_cancel_left b hpx,
      Nat.mod_eq_of_lt hr, Nat.mod_eq_of_lt hg, Nat.mod_eq_of_lt hb]

/-- Witness for C6: the spec's two literal vectors — black plus white
gives the truncated mean, and a uniform 4-pixel buffer of
`(200,100,50)` averages to itself. -/
theorem averageRGB_spec_witness :
    averageRGB [0, 0, 0, 255, 255, 255] 2
      = ⟨listMean (componentList [0, 0, 0, 255, 255, 255] 2 0),
         listMean (componentList [0, 0, 0, 255, 255, 255] 2 1),
         listMean (componentList [0, 0, 0, 255, 255, 255] 2 2)⟩
    ∧ averageRGB (fillBuf ⟨200, 100, 50⟩ 4) 4 = ⟨200, 100, 50⟩ := by
  have h := averageRGB_spec
  exact ⟨h.2.1 [0, 0, 0, 255, 255, 255] 2 (by decide) (by decide)
      (by decide),
    h.2.2.1 ⟨200, 100, 50⟩ 4 (by decide) (by decide) (by decide)
      (by decide)⟩

/-- C3: `PairBridge` inspects only the first element of the response
array: `error.type == 101` gives the link-button error, any other
`error` gives a bridge error with its type and description, a `success`
object (with no error) returns its username and clientkey, and an empty
array or a first element with neither field is a malformed-response
failure. -/
theorem pairBridge_spec :
    (∀ r rest e, r.error = some e → e.type = 101 →
        PairBridge (r :: rest) = .linkButtonNotPressed)
    ∧ (∀ r rest e, r.error = some e → ¬ e.type = 101 →
        PairBridge (r :: rest) = .bridgeError e.type e.description)
    ∧ (∀ r rest s, r.error = none → r.success = some s →
        PairBridge (r :: rest) = .ok s.username s.clientkey)
    ∧ isMalformedOutcome (PairBridge []) = true
    ∧ (∀ r rest, r.error = none → r.success = none →
        isMalformedOutcome (PairBridge (r :: rest)) = true)
    ∧ (∀ r rest rest2, PairBridge (r :: rest) = PairBridge (r :: rest2)) := by
  refine ⟨?_, ?_, ?_, rfl, ?_, ?_⟩
  · intro r rest e he h101
    simp [PairBridge, he, h101]
  · intro r rest e he h101
    simp [PairBridge, he, h101]
  · intro r rest s he hs
    simp [PairBridge, he, hs]
  · intro r rest he hs
    simp [PairBridge, isMalformedOutcome, he, hs]
  · intro r rest rest2
    rfl

/-- Witness for C3 at the spec's literal responses. -/
theorem pairBridge_spec_witness :
    PairBridge [⟨none, some ⟨101, "link not pressed"⟩⟩]
        = .linkButtonNotPressed
    ∧ PairBridge [⟨some ⟨"U", "K"⟩, none⟩] = .ok "U" "K"
    ∧ isMalformedOutcome (PairBridge [⟨none, none⟩]) = true := by
  have h := pairBridge_spec
  exact ⟨h.1 ⟨none, some ⟨101, "link not pressed"⟩⟩ []
      ⟨101, "link not pressed"⟩ rfl rfl,
    h.2.2.1 ⟨some ⟨"U", "K"⟩, none⟩ [] ⟨"U", "K"⟩ rfl rfl,
    h.2.2.2.2.1 ⟨none, none⟩ [] rfl rfl⟩

theorem lookup_insert_self (l : List (String × BridgeCredentials))
    (id : String) (c : BridgeCredentials) :
    lookupCred (insertCred l id c) id = some c := by
  induction l with
  | nil => simp [insertCred, lookupCred]
  | cons p t ih =>
    by_cases hp : p.1 = id
    · simp [insertCred, lookupCred, hp]
    · simp [insertCred, lookupCred, hp, ih]

theorem lookup_insert_other (l : List (String × BridgeCredentials))
    (id1 id2 : String) (c : BridgeCredentials) (h : ¬ id1 = id2) :
    lookupCred (insertCred l id1 c) id2 = lookupCred l id2 := by
  have h' : ¬ id2 = id1 := fun e => h e.symm
  induction l with
  | nil => simp [insertCred, lookupCred, h]
  | cons p t ih =>
    by_cases hp : p.1 = id1
    · simp [insertCred, lookupCred, hp, h, h']
    · by_cases hq : p.1 = id2 <;>
        simp [insertCred, lookupCred, hp, hq, h, h', ih]

theorem lookup_erase_self (l : List (String × BridgeCredentials))
    (id : String) :
    lookupCred (eraseCred l id) id = none := by
  induction l with
  | nil => simp [eraseCred, lookupCred]
  | cons p t ih =>
    by_cases hp : p.1 = id
    · simp [eraseCred, hp, ih]
    · simp [eraseCred, lookupCred, hp, ih]

theorem lookup_erase_other (l : List (String × BridgeCredentials))
    (id1 id2 : String) (h : ¬ id1 = id2) :
    lookupCred (eraseCred l id1) id2 = lookupCred l id2 := by
  have h' : ¬ id2 = id1 := fun e => h e.symm
  induction l with
  | nil => simp [eraseCred]
  | cons p t ih =>
    by_cases hp : p.1 = id1
    · have hq : ¬ p.1 = id2 := by rw [hp]; exact h
      simp [eraseCred, lookupCred, hp, hq, h, h', ih]
    · by_cases hq : p.1 = id2 <;>
        simp [eraseCred, lookupCred, hp, hq, h, h', ih]

/-- C5: saving credentials for a bridge id and loading them back yields
`(c, true)`, and saving or deleting the entry for one id never changes
what `LoadCredentials` observes for a different id. -/
theorem credentials_roundtrip_spec :
    (∀ s id c s', SaveCredentials s id c = .ok s' →
        LoadCredentials s' id = .ok (c, true))
    ∧ (∀ s id1 id2 c s', ¬ id1 = id2 → SaveCredentials s id1 c = .ok s' →
        LoadCredentials s' id2 = LoadCredentials s id2)
    ∧ (∀ s id1 id2 s', ¬ id1 = id2 → DeleteCredentials s id1 = .ok s' →
        LoadCredentials s' id2 = LoadCredentials s id2) := by
  refine ⟨?_, ?_, ?_⟩
  · intro s id c s' h
    obtain ⟨pOk, file⟩ := s
    cases pOk
    · simp [SaveCredentials] at h
    · cases file <;>
        simp [SaveCredentials, readAllCredentials] at h <;>
        rw [← h] <;>
        simp [LoadCredentials, readAllCredentials, lookup_insert_self]
  · intro s id1 id2 c s' hne h
    obtain ⟨pOk, file⟩ := s
    cases pOk
    · simp [SaveCredentials] at h
    · cases file <;>
        simp [SaveCredentials, readAllCredentials] at h <;>
        rw [← h] <;>
        simp [LoadCredentials, readAllCredentials,
          lookup_insert_other _ _ _ _ hne, insertCred, lookupCred, hne]
  · intro s id1 id2 s' hne h
    obtain ⟨pOk, file⟩ := s
    cases pOk
    · simp [DeleteCredentials] at h
    · cases file <;> simp [DeleteCredentials, readAllCredentials] at h
      rw [← h]
      simp [LoadCredentials, readAllCredentials,
        lookup_erase_other _ _ _ hne]

/-- Witness for C5: a save into a store that already holds another
bridge's entry round-trips, and neither that save nor a delete of the
same id disturbs the other entry. -/
theorem credentials_roundtrip_spec_witness :
    LoadCredentials ⟨true, .stored (insertCred [("other", ⟨"u2", "k2"⟩)]
        "b" ⟨"U", "K"⟩)⟩ "b" = .ok (⟨"U", "K"⟩, true)
    ∧ LoadCredentials ⟨true, .stored (insertCred [("other", ⟨"u2", "k2"⟩)]
        "b" ⟨"U", "K"⟩)⟩ "other"
      = LoadCredentials ⟨true, .stored [("other", ⟨"u2", "k2"⟩)]⟩ "other"
    ∧ LoadCredentials ⟨true, .stored (eraseCred [("other", ⟨"u2", "k2"⟩)]
        "b")⟩ "other"
      = LoadCredentials ⟨true, .stored [("other", ⟨"u2", "k2"⟩)]⟩ "other" := by
  have h := credentials_roundtrip_spec
  exact ⟨h.1 ⟨true, .stored [("other", ⟨"u2", "k2"⟩)]⟩ "b" ⟨"U", "K"⟩ _ rfl,
    h.2.1 ⟨true, .stored [("other", ⟨"u2", "k2"⟩)]⟩ "b" "other" ⟨"U", "K"⟩ _
      (by decide) rfl,
    h.2.2 ⟨true, .stored [("other", ⟨"u2", "k2"⟩)]⟩ "b" "other" _
      (by decide) rfl⟩

/-- C7 fails as stated: with a resolvable path but an absent credentials
file, `DeleteCredentials` returns the read error instead of succeeding
(`readAllCredentials` fails and the error is returned). -/
theorem deleteCredentials_absent_file_counterexample :
    DeleteCredentials ⟨true, CredFile.missing⟩ "bridge1"
      = Except.error () := rfl

/-- C7 (amended): `DeleteCredentials` removes the entry for the bridge
id and rewrites the file, and an absent entry is non-fatal; but an
absent (or unreadable) credentials file makes it return the read
error. -/
theorem deleteCredentials_spec :
    (∀ s id entries, s.pathOk = true → s.file = .stored entries →
        DeleteCredentials s id = .ok ⟨true, .stored (eraseCred entries id)⟩
        ∧ LoadCredentials ⟨true, .stored (eraseCred entries id)⟩ id
            = .ok (⟨"", ""⟩, false))
    ∧ (∀ s id, s.pathOk = true →
        (s.file = .missing ∨ s.file = .malformed) →
        DeleteCredentials s id = .error ()) := by
  constructor
  · intro s id entries hp hf
    obtain ⟨pOk, file⟩ := s
    cases pOk
    · exact absurd hp (by simp)
    · subst hf
      exact ⟨rfl, by
        simp [LoadCredentials, readAllCredentials, lookup_erase_self]⟩
  · intro s id hp hf
    obtain ⟨pOk, file⟩ := s
    cases pOk
    · exact absurd hp (by simp)
    · rcases hf with hf | hf <;> subst hf <;> rfl

/-- Witness for C7 (amended): deleting the only entry succeeds and the
entry is gone afterwards; a malformed file makes the delete fail. -/
theorem deleteCredentials_spec_witness :
    DeleteCredentials ⟨true, .stored [("b", ⟨"U", "K"⟩)]⟩ "b"
        = .ok ⟨true, .stored (eraseCred [("b", ⟨"U", "K"⟩)] "b")⟩
    ∧ LoadCredentials ⟨true, .stored (eraseCred [("b", ⟨"U", "K"⟩)] "b")⟩ "b"
        = .ok (⟨"", ""⟩, false)
    ∧ DeleteCredentials ⟨true, .malformed⟩ "b" = .error () := by
  have h := deleteCredentials_spec
  have h1 := h.1 ⟨true, .stored [("b", ⟨"U", "K"⟩)]⟩ "b"
    [("b", ⟨"U", "K"⟩)] rfl rfl
  exact ⟨h1.1, h1.2, h.2 ⟨true, .malformed⟩ "b" rfl (Or.inr rfl)⟩

/-- C8: `LoadCredentials` answers `found = false` with no error both for
a missing and for a malformed credentials file; its error result occurs
exactly when the credentials path cannot be determined. -/
theorem loadCredentials_spec :
    (∀ s id, s.pathOk = true → s.file = .missing →
        LoadCredentials s id = .ok (⟨"", ""⟩, false))
    ∧ (∀ s id, s.pathOk = true → s.file = .malformed →
        LoadCredentials s id = .ok (⟨"", ""⟩, false))
    ∧ (∀ s id, LoadCredentials s id = .error () ↔ s.pathOk = false) := by
  refine ⟨?_, ?_, ?_⟩
  · intro s id hp hf
    obtain ⟨pOk, file⟩ := s
    cases pOk
    · exact absurd hp (by simp)
    · subst hf; rfl
  · intro s id hp hf
    obtain ⟨pOk, file⟩ := s
    cases pOk
    · exact absurd hp (by simp)
    · subst hf; rfl
  · intro s id
    obtain ⟨pOk, file⟩ := s
    cases pOk
    · simp [LoadCredentials]
    · cases file <;> simp [LoadCredentials, readAllCredentials]
      cases lookupCred _ id <;> simp

/-- Witness for C8: a missing file loads as not-found without error, and
a path failure is the error case. -/
theorem loadCredentials_spec_witness :
    LoadCredentials ⟨true, .missing⟩ "x" = .ok (⟨"", ""⟩, false)
    ∧ LoadCredentials ⟨false, .missing⟩ "x" = .error () := by
  have h := loadCredentials_spec
  exact ⟨h.1 ⟨true, .missing⟩ "x" rfl rfl,
    (h.2.2 ⟨false, .missing⟩ "x").mpr rfl⟩

/-- C4 fails as stated: the hint set on an unauthorized area fetch is
"Stored credentials were rejected by the bridge.", not the claimed
"Stored credentials were rejected." — shown at a concrete model in
`FetchingAreas` with stored credentials. -/
theorem areasFetched_hint_counterexample :
    ¬ ((updateAreasFetched
        ⟨.fetchingAreas, "B", "192.0.2.1", "U", "K", "", none, [], none, ""⟩
        ⟨true, .stored [("B", ⟨"U", "K"⟩)]⟩
        ⟨[], some .unauthorized⟩).1).pairErr
      = "Stored credentials were rejected." := by decide

/-- C4 (amended): on an unauthorized area fetch the orchestrator deletes
the stored credentials for the selected bridge, clears the in-memory
keys, and returns to `Pairing` with the hint "Stored credentials were
rejected by the bridge."; any other fetch error is fatal (state `Done`,
quit). The unauthorized error is produced exactly for HTTP status
403. -/
theorem areasFetched_unauthorized_spec :
    (∀ m store msg, m.state = .fetchingAreas →
        msg.err = some .unauthorized →
        ((updateAreasFetched m store msg).1.state = .pairing
        ∧ (updateAreasFetched m store msg).1.username = ""
        ∧ (updateAreasFetched m store msg).1.clientkey = ""
        ∧ (updateAreasFetched m store msg).1.pairErr
            = "Stored credentials were rejected by the bridge."
        ∧ ∀ entries, store.pathOk = true → store.file = .stored entries →
            LoadCredentials (updateAreasFetched m store msg).2.1 m.selectedID
              = .ok (⟨"", ""⟩, false)))
    ∧ (∀ m store msg e, msg.err = some (.other e) →
        ((updateAreasFetched m store msg).1.state = .done
        ∧ (updateAreasFetched m store msg).1.err
            = some ("fetching entertainment areas: " ++ e)
        ∧ (updateAreasFetched m store msg).2.2 = .quit))
    ∧ fetchAreasStatusCheck 403 = true
    ∧ (∀ n, ¬ n = 403 → fetchAreasStatusCheck n = false) := by
  refine ⟨?_, ?_, by decide, ?_⟩
  · intro m store msg _ herr
    obtain ⟨areas, err⟩ := msg
    simp only at herr
    subst herr
    refine ⟨rfl, rfl, rfl, rfl, ?_⟩
    intro entries hp hf
    obtain ⟨pOk, file⟩ := store
    simp only at hp hf
    subst hp
    subst hf
    simp [updateAreasFetched, DeleteCredentials, readAllCredentials,
      LoadCredentials, lookup_erase_self]
  · intro m store msg e herr
    obtain ⟨areas, err⟩ := msg
    simp only at herr
    subst herr
    exact ⟨rfl, rfl, rfl⟩
  · intro n hn
    simp [fetchAreasStatusCheck, hn]

/-- Witness for C4 (amended) at a concrete model and store. -/
theorem areasFetched_unauthorized_spec_witness :
    ((updateAreasFetched
        ⟨.fetchingAreas, "B", "192.0.2.1", "U", "K", "", none, [], none, ""⟩
        ⟨true, .stored [("B", ⟨"U", "K"⟩)]⟩
        ⟨[], some .unauthorized⟩).1).pairErr
      = "Stored credentials were rejected by the bridge."
    ∧ LoadCredentials ((updateAreasFetched
        ⟨.fetchingAreas, "B", "192.0.2.1", "U", "K", "", none, [], none, ""⟩
        ⟨true, .stored [("B", ⟨"U", "K"⟩)]⟩
        ⟨[], some .unauthorized⟩).2.1) "B" = .ok (⟨"", ""⟩, false) := by
  have h := (areasFetched_unauthorized_spec).1
    ⟨.fetchingAreas, "B", "192.0.2.1", "U", "K", "", none, [], none, ""⟩
    ⟨true, .stored [("B", ⟨"U", "K"⟩)]⟩
    ⟨[], some .unauthorized⟩ rfl rfl
  exact ⟨h.2.2.2.1, h.2.2.2.2 [("B", ⟨"U", "K"⟩)] rfl rfl⟩

/-- C9 fails as stated: the bridge can answer with a success object
whose keys decode to empty strings; the orchestrator handles that pair
result without error and persists credentials with an empty application
key and an empty client key. -/
theorem pairResult_empty_keys_counterexample :
    (pairResultOf (PairBridge [⟨some ⟨"", ""⟩, none⟩])).err = none
    ∧ LoadCredentials
        ((updatePairResult
            ⟨.pairingWait, "B", "192.0.2.1", "", "", "", none, [], none, ""⟩
            ⟨true, .stored []⟩
            (pairResultOf (PairBridge [⟨some ⟨"", ""⟩, none⟩]))).2.1) "B"
      = .ok (⟨"", ""⟩, true) := by
  exact ⟨rfl, rfl⟩

/-- C9 (amended): credentials are persisted only when the pairing result
carries no error — which happens exactly when `PairBridge` returned a
success object — and the persisted value is exactly the username and
clientkey of that success object, with no non-emptiness validation. -/
theorem pairResult_persistence_spec :
    (∀ m store msg, ¬ msg.err = none →
        (updatePairResult m store msg).2.1 = store)
    ∧ (∀ m store msg, msg.err = none → store.pathOk = true →
        LoadCredentials ((updatePairResult m store msg).2.1) m.selectedID
          = .ok (⟨msg.username, msg.clientkey⟩, true))
    ∧ (∀ o, (pairResultOf o).err = none ↔ ∃ u k, o = .ok u k)
    ∧ (∀ u k, pairResultOf (.ok u k) = ⟨u, k, none⟩) := by
  refine ⟨?_, ?_, ?_, fun u k => rfl⟩
  · intro m store msg h
    obtain ⟨u, k, err⟩ := msg
    cases err with
    | none => exact absurd rfl h
    | some e => cases e <;> rfl
  · intro m store msg h hp
    obtain ⟨u, k, err⟩ := msg
    simp only at h
    subst h
    obtain ⟨pOk, file⟩ := store
    simp only at hp
    subst hp
    cases file <;>
      simp [updatePairResult, SaveCredentials, readAllCredentials,
        LoadCredentials, lookup_insert_self]
  · intro o
    cases o <;> simp [pairResultOf]

/-- Witness for C9 (amended): a non-empty success pair round-trips into
the store, and an errored pair result leaves the store untouched. -/
theorem pairResult_persistence_spec_witness :
    LoadCredentials ((updatePairResult
        ⟨.pairingWait, "B", "192.0.2.1", "", "", "", none, [], none, ""⟩
        ⟨true, .stored []⟩ ⟨"U", "K", none⟩).2.1) "B"
      = .ok (⟨"U", "K"⟩, true)
    ∧ (updatePairResult
        ⟨.pairingWait, "B", "192.0.2.1", "", "", "", none, [], none, ""⟩
        ⟨true, .stored []⟩ ⟨"", "", some .linkButtonNotPressed⟩).2.1
      = ⟨true, .stored []⟩ := by
  have h := pairResult_persistence_spec
  exact ⟨h.2.1 _ _ ⟨"U", "K", none⟩ rfl rfl,
    h.1 _ _ ⟨"", "", some .linkButtonNotPressed⟩ (by simp)⟩

end Huesync
